import Mathlib

/-!
Verification of the wb-rules rule engine (src/wbrules/rule.go and
src/scripts/lib.js) against its natural-language specification.

The Go code is shallowly embedded: each engine operation becomes a pure
Lean function on an explicit engine state.  Pointers (`*Rule`, `*Cell`)
are modelled as identities: the rule heap is a function `Nat → Option Rule`
and cells are identified by their `(devName, name)` pair, which is
faithful because the engine obtains cells exclusively through
`EnsureDevice(...).EnsureCell(...)`, so equal names mean equal pointers.
Script callbacks are modelled as oracles: `Rule.Check` takes the outcome
the condition callback would produce (a boolean, or an exception), which
is exactly the interface `invokeCallback` exposes to the Go side.
-/

namespace WbRules

/-- A duktape/JS value as far as the engine observes it: cell values,
`oldCellValue` (Go `interface{}`, nil modelled as `null`), and the values
flowing through the lib.js condition wrappers. -/
inductive JsValue where
  | null
  | undef
  | bool (b : Bool)
  | num (n : Int)
  | str (s : String)
deriving DecidableEq, Repr

/-- Cell identity: `(deviceName, name)`.  The engine resolves cells via
`EnsureDevice(devName).EnsureCell(cellName)`, so this pair determines the
Go `*Cell` pointer. -/
structure Cell where
  devName : String
  name : String
deriving DecidableEq, Repr

/-- The observable state of a cell: `Value()` and `IsComplete()`. -/
structure CellState where
  value : JsValue
  complete : Bool
deriving DecidableEq, Repr

/-- `RULE_TYPE_NONE / _LEVEL_TRIGGERED / _EDGE_TRIGGERED / _ON_CELL_CHANGE`
from rule.go.  `noneT` is the destroyed state. -/
inductive RuleType where
  | noneT
  | levelTriggered
  | edgeTriggered
  | onCellChange
deriving DecidableEq, Repr

/-- The `Rule` struct of rule.go.  `cond`/`thenCb` are the esCallback
handles (0 = no callback); `onCellChange` is the watched cell list. -/
structure Rule where
  name : String
  cond : Nat
  thenCb : Nat
  onCellChange : List Cell
  ruleType : RuleType
  firstRun : Bool
  prevCondValue : Bool
  oldCellValue : JsValue
  shouldCheck : Bool
deriving DecidableEq, Repr

/-- Outcome of running a script condition through duktape `PcallProp`:
either it returned a value coerced to a boolean, or it threw. -/
inductive CondOutcome where
  | ok (b : Bool)
  | exn (msg : String)
deriving DecidableEq, Repr

/-- `RuleEngine.invokeCallback` (rule.go lines 323-342): on a script
exception it logs and returns `false`; otherwise `ToBoolean(result)`. -/
def invokeCallback : CondOutcome → Bool
  | CondOutcome.ok b => b
  | CondOutcome.exn _ => false

/-- The argument object built for an `onCellChange` firing
(rule.go lines 205-210). -/
structure FireArgs where
  device : String
  cell : String
  newValue : JsValue
  oldValue : JsValue
deriving DecidableEq, Repr

/-- The `for _, checkCell := range rule.onCellChange` loop of `Rule.Check`
(rule.go lines 202-214): scan the watch list for the changed cell,
building the args and updating `oldCellValue` at the first hit (`break`).
`v` is `cell.Value()`. -/
def onCellChangeScan (rule : Rule) (c : Cell) (v : JsValue) :
    List Cell → Bool × Option FireArgs × Rule
  | [] => (false, Option.none, rule)
  | checkCell :: rest =>
    if c = checkCell then
      (true,
       some { device := c.devName, cell := c.name, newValue := v,
              oldValue := rule.oldCellValue },
       { rule with oldCellValue := v })
    else onCellChangeScan rule c v rest

/-- `Rule.Check` (rule.go lines 180-223).  `cell` is the changed cell (nil
for a forced pass), `m` gives each cell's observable state, `condResult`
is the oracle for what the condition callback would do if invoked.
Returns the updated rule, whether the body fired, and the body args;
`Except.error` models the Go panic on a destroyed rule. -/
def Rule.Check (rule : Rule) (cell : Option Cell) (m : Cell → CellState)
    (condResult : CondOutcome) : Except String (Rule × Bool × Option FireArgs) :=
  if cell.isSome && !rule.shouldCheck then
    Except.ok (rule, false, Option.none)
  else if rule.ruleType = RuleType.noneT then
    Except.error "invoking a destroyed rule"
  else
    let (shouldFire, args, rule1) :=
      match rule.ruleType with
      | RuleType.levelTriggered => (invokeCallback condResult, Option.none, rule)
      | RuleType.edgeTriggered =>
        let current := invokeCallback condResult
        (current && (rule.firstRun || current != rule.prevCondValue), Option.none,
         { rule with prevCondValue := current })
      | RuleType.onCellChange =>
        match cell with
        | some c =>
          if (m c).complete then onCellChangeScan rule c (m c).value rule.onCellChange
          else (false, Option.none, rule)
        | Option.none => (false, Option.none, rule)
      | RuleType.noneT => (false, Option.none, rule)
    Except.ok ({ rule1 with firstRun := false, shouldCheck := false }, shouldFire, args)

/-! ## Timer subsystem (rule.go lines 608-679) -/

/-- A `TimerEntry` (rule.go lines 83-87).  The `timer` and `quit` channels
are concurrency primitives with no engine-state content; `tag` stands for
the entry's pointer identity so distinct allocations stay distinct. -/
structure TimerEntry where
  periodic : Bool
  tag : Nat
deriving DecidableEq, Repr

/-- The slot-allocation part of `esWbStartTimer` (rule.go lines 622-631):

    var n int
    for n = 1; n <= len(engine.timers); n++ {
        if engine.timers[n - 1] == nil {
            engine.timers[n - 1] = entry
        }
        break
    }
    if n > len(engine.timers) {
        engine.timers = append(engine.timers, entry)
    }

The loop body ends in an unconditional `break`, so it executes at most one
iteration and `n` is never incremented: if the table is non-empty the loop
runs once with `n = 1` (filling slot 1 only when it is nil) and breaks; if
the table is empty the guard fails immediately and `n = 1 > 0` triggers the
append.  Returns the new table and the id `n` pushed as the result. -/
def esWbStartTimerAlloc (timers : List (Option TimerEntry)) (entry : TimerEntry) :
    List (Option TimerEntry) × Nat :=
  let n : Nat := 1
  let timers1 :=
    if n ≤ timers.length then
      if timers.getD (n - 1) Option.none = Option.none then
        timers.set (n - 1) (some entry)
      else timers
    else timers
  if n > timers1.length then (timers1 ++ [some entry], n) else (timers1, n)

/-- Timer-side engine state: the timer table and the set of keys present
in the `ruleEngineTimers` callback list (keys are the Go `int` ids). -/
structure TimerState where
  timers : List (Option TimerEntry)
  timerCallbacks : List Int
deriving DecidableEq, Repr

/-- `removeCallback("ruleEngineTimers", n)`: `DelProp` deletes the key. -/
def removeTimerCb (cbs : List Int) (k : Int) : List Int :=
  cbs.filter (fun x => x != k)

/-- `esWbStopTimer` (rule.go lines 663-679).  The returned `Bool` records
whether an error was logged.  `Except.error` models the Go runtime panic:
`engine.timers[n - 1]` is evaluated with no bounds check, so any `n`
outside `1 ≤ n ≤ len(timers)` (other than the guarded `n = 0`) indexes out
of range.  On a live entry, `removeTimer` deletes the callback and nils
the slot (rule.go lines 658-661). -/
def esWbStopTimer (ts : TimerState) (n : Int) : Except String (TimerState × Bool) :=
  if n = 0 then
    Except.ok (ts, true)
  else if 1 ≤ n ∧ (n - 1).toNat < ts.timers.length then
    match ts.timers.getD (n - 1).toNat Option.none with
    | some _entry =>
      Except.ok ({ timers := ts.timers.set (n - 1).toNat Option.none,
                   timerCallbacks := removeTimerCb ts.timerCallbacks n }, false)
    | Option.none => Except.ok (ts, true)
  else
    Except.error "runtime error: index out of range"

/-! ## Engine registry state (rule.go lines 243-806) -/

/-- The registry-facing fields of `RuleEngine`.  `rules` is the heap of
`*Rule` pointers (`Nat` identities); `ruleMap`/`cellToRuleMap` are the Go
maps; `ruleFuncs` is the set of keys present in the `ruleFuncs` callback
list; `nextRuleId` models allocation freshness. -/
structure Engine where
  rules : Nat → Option Rule
  ruleMap : String → Option Nat
  ruleList : List String
  cellToRuleMap : Cell → Option (List Nat)
  rulesWithoutCells : List Nat
  ruleFuncs : List Nat
  callbackIndex : Nat
  nextRuleId : Nat

/-- Heap write: install rule record `r` at identity `rid`. -/
def putRule (e : Engine) (rid : Nat) (r : Rule) : Engine :=
  { e with rules := fun x => if x = rid then some r else e.rules x }

/-- `rule.ShouldCheck()` applied through a rule pointer
(rule.go lines 176-178): set the flag on the pointed-to record. -/
def ruleShouldCheck (e : Engine) (rid : Nat) : Engine :=
  match e.rules rid with
  | Option.none => e
  | some r => putRule e rid { r with shouldCheck := true }

/-- `RuleEngine.storeRuleCell` (rule.go lines 522-528): append the rule to
`cellToRuleMap[cell]`, creating the list if absent. -/
def storeRuleCell (e : Engine) (rid : Nat) (c : Cell) : Engine :=
  let list := (e.cellToRuleMap c).getD []
  { e with cellToRuleMap :=
      fun x => if x = c then some (list ++ [rid]) else e.cellToRuleMap x }

/-- `RuleEngine.storeRuleTrackedCells` (rule.go lines 530-540): store each
noted cell for the rule; if none were noted, add the rule to the
`rulesWithoutCells` set (Go map insert, hence deduplicated). -/
def storeRuleTrackedCells (e : Engine) (rid : Nat) (notedCells : List Cell) : Engine :=
  if notedCells.length > 0 then
    notedCells.foldl (fun acc c => storeRuleCell acc rid c) e
  else if rid ∈ e.rulesWithoutCells then e
  else { e with rulesWithoutCells := e.rulesWithoutCells ++ [rid] }

/-- `removeCallback("ruleFuncs", k)`. -/
def removeRuleFunc (e : Engine) (k : Nat) : Engine :=
  { e with ruleFuncs := e.ruleFuncs.filter (fun x => x != k) }

/-- `Rule.Destroy` (rule.go lines 231-239) on the rule at `rid`: release
the `cond` and `then` callback handles when non-zero and set `ruleType`
to the destroyed state.  Nothing else is touched. -/
def destroyRule (e : Engine) (rid : Nat) : Engine :=
  match e.rules rid with
  | Option.none => e
  | some r =>
    let e1 := if r.cond ≠ 0 then removeRuleFunc e r.cond else e
    let e2 := if r.thenCb ≠ 0 then removeRuleFunc e1 r.thenCb else e1
    putRule e2 rid { r with ruleType := RuleType.noneT }

/-- `storeCallback("ruleFuncs", idx, nil)` (rule.go lines 349-368): a new
key `callbackIndex` is generated, the callback stored under it, and the
counter bumped. -/
def storeCallbackFresh (e : Engine) : Nat × Engine :=
  (e.callbackIndex,
   { e with ruleFuncs := e.ruleFuncs ++ [e.callbackIndex],
            callbackIndex := e.callbackIndex + 1 })

/-- A validated rule definition object as `newRule` sees it: exactly one
trigger (`when` / `asSoonAs` / `onCellChange` with resolved cells) plus a
mandatory `then`.  Definitions failing `newRule`'s validation return an
error before touching the registry and are not modelled further. -/
inductive TriggerDef where
  | whenT
  | asSoonAsT
  | onCellChangeT (cells : List Cell)
deriving DecidableEq, Repr

/-- `newRule` (rule.go lines 103-168) on a valid definition: allocate the
rule record (`firstRun: true, prevCondValue: false, oldCellValue: nil,
shouldCheck: false`), store the `then` callback, then per trigger store
the `cond` callback or resolve the watched cells (calling
`storeRuleCell` for each).  Returns the new rule's identity. -/
def newRuleDef (e : Engine) (name : String) (d : TriggerDef) : Nat × Engine :=
  let rid := e.nextRuleId
  let e0 := { e with nextRuleId := rid + 1 }
  let (thenCb, e1) := storeCallbackFresh e0
  let base : Rule :=
    { name := name, cond := 0, thenCb := thenCb, onCellChange := [],
      ruleType := RuleType.noneT, firstRun := true, prevCondValue := false,
      oldCellValue := JsValue.null, shouldCheck := false }
  match d with
  | TriggerDef.whenT =>
    let (cond, e2) := storeCallbackFresh e1
    (rid, putRule e2 rid { base with cond := cond, ruleType := RuleType.levelTriggered })
  | TriggerDef.asSoonAsT =>
    let (cond, e2) := storeCallbackFresh e1
    (rid, putRule e2 rid { base with cond := cond, ruleType := RuleType.edgeTriggered })
  | TriggerDef.onCellChangeT cells =>
    let e2 := cells.foldl (fun acc c => storeRuleCell acc rid c) e1
    (rid, putRule e2 rid { base with ruleType := RuleType.onCellChange,
                                     onCellChange := cells })

/-- `esWbDefineRule` (rule.go lines 736-755) on a valid definition:
build the new rule; if the name exists destroy the old rule (keeping
`ruleList` and hence iteration order unchanged), otherwise append the
name to `ruleList`; finally `ruleMap[name] = newRule`. -/
def esWbDefineRule (e : Engine) (name : String) (d : TriggerDef) : Engine :=
  let rid := (newRuleDef e name d).1
  let e1 := (newRuleDef e name d).2
  let e2 :=
    match e1.ruleMap name with
    | some oldRid => destroyRule e1 oldRid
    | Option.none => { e1 with ruleList := e1.ruleList ++ [name] }
  { e2 with ruleMap := fun k => if k = name then some rid else e2.ruleMap k }

/-- The marking phase of `RuleEngine.RunRules` (rule.go lines 786-801):
resolve the changed cell; if it is complete, mark every rule in
`cellToRuleMap[cell]`; then — outside the completeness check — mark every
rule in `rulesWithoutCells`.  (The subsequent sweep calling `Check` on
each listed rule, lines 803-805, consumes the marks.) -/
def RunRulesMark (e : Engine) (cellSpec : Option Cell) (m : Cell → CellState) : Engine :=
  match cellSpec with
  | Option.none => e
  | some cell =>
    let e1 :=
      if (m cell).complete then
        match e.cellToRuleMap cell with
        | some list => list.foldl ruleShouldCheck e
        | Option.none => e
      else e
    e1.rulesWithoutCells.foldl ruleShouldCheck e1

/-! ## lib.js condition protector (src/scripts/lib.js lines 36-130) -/

/-- A script error: the dedicated `IncompleteCellCaught` error
(lib.js lines 13-20) or any other exception. -/
inductive JsError where
  | incompleteCellCaught (cellName : String)
  | other (msg : String)
deriving DecidableEq, Repr

/-- A script condition as a state transformer over the global
`_WbRules.requireCompleteCells` counter: it may read the counter (through
cell reads) and returns a value or throws, together with the counter it
leaves behind (nested wrapped conditions may move it). -/
def CondFun : Type := Int → (Except JsError JsValue) × Int

/-- JS truthiness (`!!v`). -/
def jsTruthy : JsValue → Bool
  | JsValue.null => false
  | JsValue.undef => false
  | JsValue.bool b => b
  | JsValue.num n => n != 0
  | JsValue.str s => s != ""

/-- `typeof incompleteValue == "boolean"`. -/
def isBooleanJs : JsValue → Bool
  | JsValue.bool _ => true
  | _ => false

/-- The `conv` closure of `wrapConditionFunc` (lib.js lines 114-115):
boolean-coerce the result when the configured `incompleteValue` is a
boolean, otherwise pass it through. -/
def convFn (incompleteValue : JsValue) (v : JsValue) : JsValue :=
  if isBooleanJs incompleteValue then JsValue.bool (jsTruthy v) else v

/-- `wrapConditionFunc` (lib.js lines 113-130): increment
`requireCompleteCells`, run the user condition, catch exactly
`IncompleteCellCaught` (converting it to `incompleteValue`), rethrow any
other exception, and decrement the counter in `finally` on every exit
path. -/
def wrapConditionFunc (f : CondFun) (incompleteValue : JsValue) : CondFun :=
  fun counter =>
    let counter1 := counter + 1
    let (r, counter2) := f counter1
    let result : Except JsError JsValue :=
      match r with
      | Except.ok v => Except.ok (convFn incompleteValue v)
      | Except.error (JsError.incompleteCellCaught _) => Except.ok incompleteValue
      | Except.error (JsError.other msg) => Except.error (JsError.other msg)
    (result, counter2 - 1)

/-- The wrapping `defineRule` applies to the `when` / `asSoonAs` keys
(lib.js line 160): `wrapConditionFunc(orig, false)`. -/
def wrapWhenCond (f : CondFun) : CondFun :=
  wrapConditionFunc f (JsValue.bool false)

/-- The cell-read trap of the device proxy in `getDevValue`
(lib.js lines 52-58): while `requireCompleteCells` is truthy, reading an
incomplete cell throws `IncompleteCellCaught`; otherwise the cell's value
is returned. -/
def devProxyGet (counter : Int) (cellName : String) (cs : CellState) :
    Except JsError JsValue :=
  if counter ≠ 0 ∧ cs.complete = false then
    Except.error (JsError.incompleteCellCaught cellName)
  else Except.ok cs.value

/-! ## Concrete instances used by counterexamples and witnesses -/

/-- A sample cell. -/
def exCell : Cell := { devName := "dev", name := "cell" }

/-- A cell model in which every cell has the given value and completeness. -/
def constModel (v : JsValue) (b : Bool) : Cell → CellState :=
  fun _ => { value := v, complete := b }

/-- A freshly created edge-triggered rule (`newRule` field values). -/
def c1EdgeRule : Rule :=
  { name := "c1", cond := 2, thenCb := 1, onCellChange := [],
    ruleType := RuleType.edgeTriggered, firstRun := true, prevCondValue := false,
    oldCellValue := JsValue.null, shouldCheck := false }

/-- An edge-triggered rule whose previous condition value was true and
which is marked for checking. -/
def c2EdgeRule : Rule :=
  { c1EdgeRule with name := "c2", firstRun := false, prevCondValue := true,
                    shouldCheck := true }

/-- A level-triggered rule not marked for checking. -/
def c10LevelRule : Rule :=
  { c1EdgeRule with name := "c10", cond := 4, thenCb := 3,
                    ruleType := RuleType.levelTriggered }

/-- A fresh `onCellChange` rule watching `exCell`, marked for checking. -/
def c7ChangeRule : Rule :=
  { name := "c7", cond := 0, thenCb := 1, onCellChange := [exCell],
    ruleType := RuleType.onCellChange, firstRun := true, prevCondValue := false,
    oldCellValue := JsValue.null, shouldCheck := true }

/-- The engine registry state right after `NewRuleEngine`. -/
def emptyEngine : Engine :=
  { rules := fun _ => Option.none, ruleMap := fun _ => Option.none, ruleList := [],
    cellToRuleMap := fun _ => Option.none, rulesWithoutCells := [], ruleFuncs := [],
    callbackIndex := 1, nextRuleId := 0 }

/-- A level rule used in the C3 scenario (condition read no cells). -/
def c3LevelRule : Rule :=
  { c1EdgeRule with name := "c3", ruleType := RuleType.levelTriggered }

/-- Engine with one registered rule (id 0) whose last condition evaluation
read no cells, so it sits in `rulesWithoutCells`. -/
def c3Engine : Engine :=
  { emptyEngine with
      rules := fun x => if x = 0 then some c3LevelRule else Option.none,
      ruleMap := fun k => if k = "c3" then some 0 else Option.none,
      ruleList := ["c3"],
      rulesWithoutCells := [0],
      ruleFuncs := [1, 2], callbackIndex := 3, nextRuleId := 1 }

/-- An existing level rule named "r" holding callback handles 1 and 2. -/
def c6OldRule : Rule :=
  { name := "r", cond := 2, thenCb := 1, onCellChange := [],
    ruleType := RuleType.levelTriggered, firstRun := false, prevCondValue := false,
    oldCellValue := JsValue.null, shouldCheck := false }

/-- Engine with the rule "r" registered at id 0. -/
def c6Engine : Engine :=
  { emptyEngine with
      rules := fun x => if x = 0 then some c6OldRule else Option.none,
      ruleMap := fun k => if k = "r" then some 0 else Option.none,
      ruleList := ["r"],
      ruleFuncs := [1, 2], callbackIndex := 3, nextRuleId := 1 }

/-- A registered rule whose condition once read `exCell` and which also
sits in `rulesWithoutCells`, with live callback handles 1 and 2. -/
def c9Rule : Rule := { c6OldRule with name := "c9" }

/-- Engine where rule id 0 appears both in `cellToRuleMap[exCell]` and in
`rulesWithoutCells`. -/
def c9Engine : Engine :=
  { emptyEngine with
      rules := fun x => if x = 0 then some c9Rule else Option.none,
      ruleMap := fun k => if k = "c9" then some 0 else Option.none,
      ruleList := ["c9"],
      cellToRuleMap := fun c => if c = exCell then some [0] else Option.none,
      rulesWithoutCells := [0],
      ruleFuncs := [1, 2], callbackIndex := 3, nextRuleId := 1 }

/-- An existing timer entry occupying a slot. -/
def timerEntryA : TimerEntry := { periodic := false, tag := 0 }

/-- A new timer entry to be allocated. -/
def timerEntryB : TimerEntry := { periodic := false, tag := 1 }

/-- A script condition that immediately reads an incomplete cell and so
throws `IncompleteCellCaught`, leaving the counter untouched. -/
def c8IncompleteCond : CondFun :=
  fun k => (Except.error (JsError.incompleteCellCaught "x"), k)

/-! ## Helper lemmas -/

theorem putRule_rules (e : Engine) (rid : Nat) (r : Rule) (x : Nat) :
    (putRule e rid r).rules x = if x = rid then some r else e.rules x := rfl

theorem ruleShouldCheck_rules (e : Engine) (rid x : Nat) :
    (ruleShouldCheck e rid).rules x =
      if x = rid then (e.rules rid).map (fun r => { r with shouldCheck := true })
      else e.rules x := by
  unfold ruleShouldCheck
  cases h : e.rules rid with
  | none =>
    by_cases hx : x = rid
    · subst hx; simp [h]
    · simp [hx]
  | some r =>
    by_cases hx : x = rid
    · subst hx; simp [putRule, h]
    · simp [putRule, hx]

theorem foldl_ruleShouldCheck_rules (l : List Nat) (e : Engine) (x : Nat) :
    (l.foldl ruleShouldCheck e).rules x =
      if x ∈ l then (e.rules x).map (fun r => { r with shouldCheck := true })
      else e.rules x := by
  induction l generalizing e with
  | nil => simp
  | cons a l ih =>
    rw [List.foldl_cons, ih]
    by_cases hx : x = a
    · subst hx
      by_cases hmem : x ∈ l
      · rw [if_pos hmem, if_pos (List.mem_cons_self x l), ruleShouldCheck_rules,
            if_pos rfl]
        cases e.rules x <;> rfl
      · rw [if_neg hmem, if_pos (List.mem_cons_self x l), ruleShouldCheck_rules,
            if_pos rfl]
    · have hiff : x ∈ a :: l ↔ x ∈ l := by simp [List.mem_cons, hx]
      by_cases hmem : x ∈ l
      · rw [if_pos hmem, if_pos (hiff.2 hmem), ruleShouldCheck_rules, if_neg hx]
      · rw [if_neg hmem, if_neg (fun hh => hmem (hiff.1 hh)), ruleShouldCheck_rules,
            if_neg hx]

theorem not_mem_filter_ne_self (l : List Nat) (x : Nat) :
    x ∉ l.filter (fun y => y != x) := by
  intro hmem
  have h := (List.mem_filter.1 hmem).2
  simp at h

theorem not_mem_filter_of_not_mem (l : List Nat) (p : Nat → Bool) (x : Nat)
    (h : x ∉ l) : x ∉ l.filter p :=
  fun hmem => h (List.mem_filter.1 hmem).1

theorem destroyRule_cellToRuleMap (e : Engine) (rid : Nat) :
    (destroyRule e rid).cellToRuleMap = e.cellToRuleMap := by
  unfold destroyRule
  cases e.rules rid with
  | none => rfl
  | some r =>
    by_cases h1 : r.cond ≠ 0 <;> by_cases h2 : r.thenCb ≠ 0 <;>
      simp [h1, h2, removeRuleFunc, putRule]

theorem destroyRule_rulesWithoutCells (e : Engine) (rid : Nat) :
    (destroyRule e rid).rulesWithoutCells = e.rulesWithoutCells := by
  unfold destroyRule
  cases e.rules rid with
  | none => rfl
  | some r =>
    by_cases h1 : r.cond ≠ 0 <;> by_cases h2 : r.thenCb ≠ 0 <;>
      simp [h1, h2, removeRuleFunc, putRule]

theorem destroyRule_ruleList (e : Engine) (rid : Nat) :
    (destroyRule e rid).ruleList = e.ruleList := by
  unfold destroyRule
  cases e.rules rid with
  | none => rfl
  | some r =>
    by_cases h1 : r.cond ≠ 0 <;> by_cases h2 : r.thenCb ≠ 0 <;>
      simp [h1, h2, removeRuleFunc, putRule]

theorem destroyRule_ruleMap (e : Engine) (rid : Nat) :
    (destroyRule e rid).ruleMap = e.ruleMap := by
  unfold destroyRule
  cases e.rules rid with
  | none => rfl
  | some r =>
    by_cases h1 : r.cond ≠ 0 <;> by_cases h2 : r.thenCb ≠ 0 <;>
      simp [h1, h2, removeRuleFunc, putRule]

theorem destroyRule_rules_eq (e : Engine) (rid : Nat) (r : Rule)
    (h : e.rules rid = some r) (x : Nat) :
    (destroyRule e rid).rules x =
      if x = rid then some { r with ruleType := RuleType.noneT } else e.rules x := by
  unfold destroyRule
  rw [h]
  by_cases h1 : r.cond ≠ 0 <;> by_cases h2 : r.thenCb ≠ 0 <;>
    simp [h1, h2, removeRuleFunc, putRule]

theorem destroyRule_ruleFuncs_release (e : Engine) (rid : Nat) (r : Rule)
    (h : e.rules rid = some r) :
    (r.cond ≠ 0 → r.cond ∉ (destroyRule e rid).ruleFuncs) ∧
    (r.thenCb ≠ 0 → r.thenCb ∉ (destroyRule e rid).ruleFuncs) := by
  simp only [destroyRule, h]
  constructor
  · intro hc
    by_cases h2 : r.thenCb ≠ 0
    · rw [if_pos hc, if_pos h2]
      exact not_mem_filter_of_not_mem _ _ _ (not_mem_filter_ne_self _ _)
    · rw [if_pos hc, if_neg h2]
      exact not_mem_filter_ne_self _ _
  · intro ht
    by_cases h1 : r.cond ≠ 0
    · rw [if_pos h1, if_pos ht]
      exact not_mem_filter_ne_self _ _
    · rw [if_neg h1, if_pos ht]
      exact not_mem_filter_ne_self _ _

theorem foldl_storeRuleCell_fields (cells : List Cell) (e : Engine) (rid : Nat) :
    (cells.foldl (fun acc c => storeRuleCell acc rid c) e).rules = e.rules ∧
    (cells.foldl (fun acc c => storeRuleCell acc rid c) e).ruleMap = e.ruleMap ∧
    (cells.foldl (fun acc c => storeRuleCell acc rid c) e).ruleList = e.ruleList ∧
    (cells.foldl (fun acc c => storeRuleCell acc rid c) e).rulesWithoutCells
      = e.rulesWithoutCells ∧
    (cells.foldl (fun acc c => storeRuleCell acc rid c) e).ruleFuncs = e.ruleFuncs ∧
    (cells.foldl (fun acc c => storeRuleCell acc rid c) e).callbackIndex
      = e.callbackIndex ∧
    (cells.foldl (fun acc c => storeRuleCell acc rid c) e).nextRuleId = e.nextRuleId := by
  induction cells generalizing e with
  | nil => exact ⟨rfl, rfl, rfl, rfl, rfl, rfl, rfl⟩
  | cons c cs ih => exact ih (storeRuleCell e rid c)

theorem newRuleDef_spec (e : Engine) (name : String) (d : TriggerDef) :
    (newRuleDef e name d).1 = e.nextRuleId ∧
    (newRuleDef e name d).2.ruleMap = e.ruleMap ∧
    (newRuleDef e name d).2.ruleList = e.ruleList ∧
    (∀ x, x ≠ e.nextRuleId → (newRuleDef e name d).2.rules x = e.rules x) ∧
    ((newRuleDef e name d).2.rules e.nextRuleId).map Rule.firstRun = some true ∧
    ((newRuleDef e name d).2.rules e.nextRuleId).map Rule.oldCellValue
      = some JsValue.null := by
  cases d with
  | whenT =>
    refine ⟨rfl, rfl, rfl, fun x hx => ?_, ?_, ?_⟩
    · show (putRule _ e.nextRuleId _).rules x = e.rules x
      rw [putRule_rules, if_neg hx]
    · show ((putRule _ e.nextRuleId _).rules e.nextRuleId).map Rule.firstRun = some true
      rw [putRule_rules, if_pos rfl]; rfl
    · show ((putRule _ e.nextRuleId _).rules e.nextRuleId).map Rule.oldCellValue
        = some JsValue.null
      rw [putRule_rules, if_pos rfl]; rfl
  | asSoonAsT =>
    refine ⟨rfl, rfl, rfl, fun x hx => ?_, ?_, ?_⟩
    · show (putRule _ e.nextRuleId _).rules x = e.rules x
      rw [putRule_rules, if_neg hx]
    · show ((putRule _ e.nextRuleId _).rules e.nextRuleId).map Rule.firstRun = some true
      rw [putRule_rules, if_pos rfl]; rfl
    · show ((putRule _ e.nextRuleId _).rules e.nextRuleId).map Rule.oldCellValue
        = some JsValue.null
      rw [putRule_rules, if_pos rfl]; rfl
  | onCellChangeT cells =>
    refine ⟨rfl, ?_, ?_, fun x hx => ?_, ?_, ?_⟩
    · exact (foldl_storeRuleCell_fields cells
        ((storeCallbackFresh { e with nextRuleId := e.nextRuleId + 1 }).2)
        e.nextRuleId).2.1
    · exact (foldl_storeRuleCell_fields cells
        ((storeCallbackFresh { e with nextRuleId := e.nextRuleId + 1 }).2)
        e.nextRuleId).2.2.1
    · show (putRule _ e.nextRuleId _).rules x = e.rules x
      rw [putRule_rules, if_neg hx]
      exact congrFun (foldl_storeRuleCell_fields cells
        ((storeCallbackFresh { e with nextRuleId := e.nextRuleId + 1 }).2)
        e.nextRuleId).1 x
    · show ((putRule _ e.nextRuleId _).rules e.nextRuleId).map Rule.firstRun = some true
      rw [putRule_rules, if_pos rfl]; rfl
    · show ((putRule _ e.nextRuleId _).rules e.nextRuleId).map Rule.oldCellValue
        = some JsValue.null
      rw [putRule_rules, if_pos rfl]; rfl

theorem onCellChangeScan_spec (rule : Rule) (c : Cell) (v : JsValue) (l : List Cell) :
    onCellChangeScan rule c v l =
      (if c ∈ l then
        (true,
         some { device := c.devName, cell := c.name, newValue := v,
                oldValue := rule.oldCellValue },
         { rule with oldCellValue := v })
       else (false, Option.none, rule)) := by
  induction l with
  | nil => simp [onCellChangeScan]
  | cons a l ih =>
    by_cases h : c = a
    · simp [onCellChangeScan, h]
    · simp [onCellChangeScan, h, ih]

/-! ## Claim theorems -/

/-- Claim C1: for every edge-triggered rule, on every evaluation of its
condition by `Check` (i.e. every call that is not skipped by the
`shouldCheck` early return), letting `current` be the boolean the
condition returned, the body fires iff
`current && (firstRun || current != prevCondValue)`, and `prevCondValue`
is then set to `current`. -/
theorem c1_edge_trigger_semantics (r : Rule) (cell : Option Cell)
    (m : Cell → CellState) (current : Bool)
    (hType : r.ruleType = RuleType.edgeTriggered)
    (hRun : cell = Option.none ∨ r.shouldCheck = true) :
    Rule.Check r cell m (CondOutcome.ok current) =
      Except.ok
        ({ r with prevCondValue := current, firstRun := false, shouldCheck := false },
         current && (r.firstRun || current != r.prevCondValue), Option.none) := by
  rcases hRun with h | h
  · subst h
    simp [Rule.Check, hType, invokeCallback]
  · simp [Rule.Check, hType, h, invokeCallback]

/-- Witness for C1: a fresh edge rule whose condition returns true on a
forced pass fires and stores `prevCondValue = true`. -/
theorem c1_witness :
    Rule.Check c1EdgeRule Option.none (constModel JsValue.null true)
        (CondOutcome.ok true) =
      Except.ok
        ({ c1EdgeRule with prevCondValue := true, firstRun := false,
                           shouldCheck := false },
         true, Option.none) :=
  c1_edge_trigger_semantics c1EdgeRule Option.none (constModel JsValue.null true) true
    rfl (Or.inl rfl)

/-- Claim C2 counterexample: a condition exception on an edge-triggered
rule whose stored `prevCondValue` is `true` does update the stored value —
`Check` sets it to `false` (rule.go line 199 runs unconditionally after
`invokeCond`, and `invokeCallback` returns `false` on a script error), so
the claim that `prevCondValue` is not updated by an exception pass is
false. -/
theorem c2_counterexample :
    c2EdgeRule.prevCondValue = true ∧
    Rule.Check c2EdgeRule (some exCell) (constModel JsValue.null true)
        (CondOutcome.exn "boom") =
      Except.ok
        ({ c2EdgeRule with prevCondValue := false, firstRun := false,
                           shouldCheck := false },
         false, Option.none) :=
  ⟨rfl, rfl⟩

/-- Claim C2 (amended): if the script condition raises an exception
during a pass, the condition is treated as false for that pass and the
body does not fire; for edge-triggered rules the stored `prevCondValue`
IS updated — it is set to false by that pass. -/
theorem c2_condition_exception (r : Rule) (cell : Option Cell)
    (m : Cell → CellState) (msg : String)
    (hRun : cell = Option.none ∨ r.shouldCheck = true)
    (hType : r.ruleType = RuleType.levelTriggered ∨
             r.ruleType = RuleType.edgeTriggered) :
    Rule.Check r cell m (CondOutcome.exn msg) =
      Except.ok
        ((if r.ruleType = RuleType.edgeTriggered then
            { r with prevCondValue := false, firstRun := false, shouldCheck := false }
          else { r with firstRun := false, shouldCheck := false }),
         false, Option.none) := by
  rcases hType with ht | ht <;> rcases hRun with h | h
  · subst h; simp [Rule.Check, ht, invokeCallback]
  · simp [Rule.Check, ht, h, invokeCallback]
  · subst h; simp [Rule.Check, ht, invokeCallback]
  · simp [Rule.Check, ht, h, invokeCallback]

/-- Witness for the amended C2: the edge rule with `prevCondValue = true`
does not fire on a condition exception and comes out with
`prevCondValue = false`. -/
theorem c2_witness :
    Rule.Check c2EdgeRule (some exCell) (constModel JsValue.null true)
        (CondOutcome.exn "err") =
      Except.ok
        ({ c2EdgeRule with prevCondValue := false, firstRun := false,
                           shouldCheck := false },
         false, Option.none) :=
  c2_condition_exception c2EdgeRule (some exCell) (constModel JsValue.null true) "err"
    (Or.inr rfl) (Or.inr rfl)

/-- Claim C10: a `Check(cell)` call with a non-nil cell while
`shouldCheck` is false returns without invoking any script callback
(uniformly in the condition oracle, nothing fires, no args are built) and
leaves the entire rule state unchanged. -/
theorem c10_skip_preserves_rule_state (r : Rule) (c : Cell)
    (m : Cell → CellState) (co : CondOutcome)
    (h : r.shouldCheck = false) :
    Rule.Check r (some c) m co = Except.ok (r, false, Option.none) := by
  simp [Rule.Check, h]

/-- Witness for C10: a level rule with `shouldCheck = false` is skipped
untouched even though its condition would have returned true. -/
theorem c10_witness :
    Rule.Check c10LevelRule (some exCell) (constModel JsValue.null true)
        (CondOutcome.ok true) =
      Except.ok (c10LevelRule, false, Option.none) :=
  c10_skip_preserves_rule_state c10LevelRule exCell (constModel JsValue.null true)
    (CondOutcome.ok true) rfl

/-- Claim C3 counterexample: a `RunRules` call for an incomplete cell
still marks the rules in `rulesWithoutCells` — rule id 0 sits in
`rulesWithoutCells` with `shouldCheck = false` and comes out marked, so
the claim that nothing is marked when the cell is incomplete is false. -/
theorem c3_counterexample :
    (constModel JsValue.null false exCell).complete = false ∧
    c3Engine.rulesWithoutCells = [0] ∧
    (c3Engine.rules 0).map Rule.shouldCheck = some false ∧
    ((RunRulesMark c3Engine (some exCell) (constModel JsValue.null false)).rules 0).map
        Rule.shouldCheck = some true := by
  refine ⟨rfl, rfl, rfl, ?_⟩
  rfl

/-- Claim C3 (amended): when the changed cell is not complete, the rules
in `cellToRules[cell]` are indeed not marked, but every rule in
`rulesWithoutCells` is still marked `shouldCheck = true` — the
`rulesWithoutCells` loop sits outside the completeness check
(rule.go lines 798-800). -/
theorem c3_incomplete_cell_marking (e : Engine) (c : Cell) (m : Cell → CellState)
    (hIncomplete : (m c).complete = false) (x : Nat) :
    (RunRulesMark e (some c) m).rules x =
      (if x ∈ e.rulesWithoutCells then
        (e.rules x).map (fun r => { r with shouldCheck := true })
       else e.rules x) := by
  rw [show RunRulesMark e (some c) m
        = List.foldl ruleShouldCheck e e.rulesWithoutCells from by
      simp [RunRulesMark, hIncomplete]]
  exact foldl_ruleShouldCheck_rules e.rulesWithoutCells e x

/-- Witness for the amended C3 at the concrete engine of the
counterexample scenario. -/
theorem c3_witness :
    (RunRulesMark c3Engine (some exCell) (constModel JsValue.null false)).rules 0 =
      (if 0 ∈ c3Engine.rulesWithoutCells then
        (c3Engine.rules 0).map (fun r => { r with shouldCheck := true })
       else c3Engine.rules 0) :=
  c3_incomplete_cell_marking c3Engine exCell (constModel JsValue.null false) rfl 0

/-- Claim C4 (code bug): with slot 1 occupied and slot 2 free, the claim
(and the spec's intended behavior) demands id 2 with the entry stored in
slot 2; the allocation loop of `esWbStartTimer` instead breaks
unconditionally after inspecting slot 1 only, so the table comes back
unchanged — the entry is stored nowhere — and the returned id is 1. -/
theorem c4_timer_alloc_at_failing_input :
    esWbStartTimerAlloc [some timerEntryA, Option.none] timerEntryB =
      ([some timerEntryA, Option.none], 1) :=
  rfl

/-- Claim C5 (code bug): `esWbStopTimer` evaluates `engine.timers[n - 1]`
with no bounds check, so an id beyond the table length (here 1 on an
empty table) or a negative id panics instead of logging a no-op as the
claim (and spec §7) requires. -/
theorem c5_stop_timer_out_of_range_panics :
    esWbStopTimer { timers := [], timerCallbacks := [] } 1 =
      Except.error "runtime error: index out of range" ∧
    esWbStopTimer { timers := [some timerEntryA], timerCallbacks := [1] } (-1) =
      Except.error "runtime error: index out of range" := by
  constructor <;> rfl

/-- Claim C6: on a valid `defineRule` call whose name already exists, the
old rule's condition and body callback handles are released and its
`ruleType` becomes destroyed, the new rule takes the same position in the
ordered rule list (`ruleList` is unchanged, the name now mapping to the
new rule), the new rule starts with `firstRun = true`; and on a fresh
name, the rule is appended at the end of the list.  The hypothesis says
the next rule identity is unallocated — true of every reachable engine
state, since identities model heap pointers. -/
theorem c6_rule_redefinition (e : Engine) (name : String) (d : TriggerDef)
    (hFresh : e.rules e.nextRuleId = Option.none) :
    (∀ oldRid oldRule, e.ruleMap name = some oldRid → e.rules oldRid = some oldRule →
      (esWbDefineRule e name d).ruleList = e.ruleList ∧
      (esWbDefineRule e name d).rules oldRid
        = some { oldRule with ruleType := RuleType.noneT } ∧
      (oldRule.cond ≠ 0 → oldRule.cond ∉ (esWbDefineRule e name d).ruleFuncs) ∧
      (oldRule.thenCb ≠ 0 → oldRule.thenCb ∉ (esWbDefineRule e name d).ruleFuncs) ∧
      (esWbDefineRule e name d).ruleMap name = some e.nextRuleId ∧
      ((esWbDefineRule e name d).rules e.nextRuleId).map Rule.firstRun = some true) ∧
    (e.ruleMap name = Option.none →
      (esWbDefineRule e name d).ruleList = e.ruleList ++ [name] ∧
      (esWbDefineRule e name d).ruleMap name = some e.nextRuleId ∧
      ((esWbDefineRule e name d).rules e.nextRuleId).map Rule.firstRun = some true) := by
  obtain ⟨hfst, hmap, hlist, hother, hfirst, hold⟩ := newRuleDef_spec e name d
  constructor
  · intro oldRid oldRule hFound hOld
    have hne : oldRid ≠ e.nextRuleId := by
      intro hcontra
      rw [hcontra, hFresh] at hOld
      exact Option.noConfusion hOld
    have hOld1 : (newRuleDef e name d).2.rules oldRid = some oldRule := by
      rw [hother oldRid hne, hOld]
    have hm1 : (newRuleDef e name d).2.ruleMap name = some oldRid := by
      rw [hmap, hFound]
    have hstep : esWbDefineRule e name d =
        { destroyRule (newRuleDef e name d).2 oldRid with
          ruleMap := fun k =>
            if k = name then some (newRuleDef e name d).1
            else (destroyRule (newRuleDef e name d).2 oldRid).ruleMap k } := by
      simp only [esWbDefineRule, hm1]
    refine ⟨?_, ?_, ?_, ?_, ?_, ?_⟩
    · rw [hstep]
      show (destroyRule (newRuleDef e name d).2 oldRid).ruleList = e.ruleList
      rw [destroyRule_ruleList, hlist]
    · rw [hstep]
      show (destroyRule (newRuleDef e name d).2 oldRid).rules oldRid
        = some { oldRule with ruleType := RuleType.noneT }
      rw [destroyRule_rules_eq _ _ _ hOld1, if_pos rfl]
    · rw [hstep]
      exact (destroyRule_ruleFuncs_release _ _ _ hOld1).1
    · rw [hstep]
      exact (destroyRule_ruleFuncs_release _ _ _ hOld1).2
    · rw [hstep]
      show (if name = name then some (newRuleDef e name d).1
            else (destroyRule (newRuleDef e name d).2 oldRid).ruleMap name)
        = some e.nextRuleId
      rw [if_pos rfl, hfst]
    · rw [hstep]
      show ((destroyRule (newRuleDef e name d).2 oldRid).rules e.nextRuleId).map
          Rule.firstRun = some true
      rw [destroyRule_rules_eq _ _ _ hOld1, if_neg (fun hh => hne hh.symm)]
      exact hfirst
  · intro hNot
    have hm1 : (newRuleDef e name d).2.ruleMap name = Option.none := by
      rw [hmap, hNot]
    have hstep : esWbDefineRule e name d =
        { { (newRuleDef e name d).2 with
            ruleList := (newRuleDef e name d).2.ruleList ++ [name] } with
          ruleMap := fun k =>
            if k = name then some (newRuleDef e name d).1
            else (newRuleDef e name d).2.ruleMap k } := by
      simp only [esWbDefineRule, hm1]
    refine ⟨?_, ?_, ?_⟩
    · rw [hstep]
      show (newRuleDef e name d).2.ruleList ++ [name] = e.ruleList ++ [name]
      rw [hlist]
    · rw [hstep]
      show (if name = name then some (newRuleDef e name d).1
            else (newRuleDef e name d).2.ruleMap name) = some e.nextRuleId
      rw [if_pos rfl, hfst]
    · rw [hstep]
      exact hfirst

/-- Witness for C6 (existing-name case): redefining rule "r" keeps
`ruleList` unchanged. -/
theorem c6_witness :
    (esWbDefineRule c6Engine "r" TriggerDef.whenT).ruleList = c6Engine.ruleList :=
  ((c6_rule_redefinition c6Engine "r" TriggerDef.whenT rfl).1 0 c6OldRule rfl rfl).1

/-- Claim C7 counterexample: an `onCellChange` rule that has never fired,
watching a complete cell whose value has always been `num 5` (so the
cell's initial value is `num 5`), receives `oldValue = null` on its first
firing — `oldCellValue` is initialized to nil by `newRule`, not to the
cell's initial value, and `null ≠ num 5`. -/
theorem c7_counterexample :
    c7ChangeRule.oldCellValue = JsValue.null ∧
    constModel (JsValue.num 5) true exCell
      = { value := JsValue.num 5, complete := true } ∧
    Rule.Check c7ChangeRule (some exCell) (constModel (JsValue.num 5) true)
        (CondOutcome.ok true) =
      Except.ok
        ({ c7ChangeRule with oldCellValue := JsValue.num 5, firstRun := false,
                             shouldCheck := false },
         true,
         some { device := "dev", cell := "cell", newValue := JsValue.num 5,
                oldValue := JsValue.null }) ∧
    JsValue.null ≠ JsValue.num 5 := by
  refine ⟨rfl, rfl, rfl, ?_⟩
  decide

/-- Claim C7 (amended): an `onCellChange` rule fires on a pass for cell
`c` iff `c` is complete and in the watch list; the body then receives
`{device, cell, newValue, oldValue}` where `oldValue` is the rule's
stored `oldCellValue` — the value observed at the previous firing, or nil
(not the cell's initial value) if the rule never fired, since `newRule`
initializes `oldCellValue` to nil — and `oldCellValue` is set to the new
value after firing. -/
theorem c7_onchange_semantics (r : Rule) (c : Cell) (m : Cell → CellState)
    (co : CondOutcome) (hType : r.ruleType = RuleType.onCellChange)
    (hCheck : r.shouldCheck = true) :
    (Rule.Check r (some c) m co =
      (if (m c).complete = true ∧ c ∈ r.onCellChange then
        Except.ok
          ({ r with oldCellValue := (m c).value, firstRun := false,
                    shouldCheck := false },
           true,
           some { device := c.devName, cell := c.name, newValue := (m c).value,
                  oldValue := r.oldCellValue })
       else
        Except.ok ({ r with firstRun := false, shouldCheck := false },
                   false, Option.none))) ∧
    (∀ e2 nm cells,
      ((newRuleDef e2 nm (TriggerDef.onCellChangeT cells)).2.rules
          e2.nextRuleId).map Rule.oldCellValue = some JsValue.null) := by
  constructor
  · by_cases h1 : (m c).complete
    · by_cases h2 : c ∈ r.onCellChange
      · simp [Rule.Check, hType, hCheck, onCellChangeScan_spec, h1, h2]
      · simp [Rule.Check, hType, hCheck, onCellChangeScan_spec, h1, h2]
    · simp [Rule.Check, hType, hCheck, h1]
  · intro e2 nm cells
    exact (newRuleDef_spec e2 nm (TriggerDef.onCellChangeT cells)).2.2.2.2.2

/-- Witness for the amended C7: the first firing of the fresh rule
watching `exCell` delivers `oldValue = null` and stores `num 5`. -/
theorem c7_witness :
    Rule.Check c7ChangeRule (some exCell) (constModel (JsValue.num 5) true)
        (CondOutcome.ok false) =
      Except.ok
        ({ c7ChangeRule with oldCellValue := JsValue.num 5, firstRun := false,
                             shouldCheck := false },
         true,
         some { device := "dev", cell := "cell", newValue := JsValue.num 5,
                oldValue := JsValue.null }) :=
  (c7_onchange_semantics c7ChangeRule exCell (constModel (JsValue.num 5) true)
      (CondOutcome.ok false) rfl rfl).1

/-- Claim C8: the condition protector increments `requireCompleteCells`
before the user condition runs (the condition observes `n + 1`) and
decrements it on every exit path — normal return, incomplete-cell error,
and any other exception; while the counter is positive, reading an
incomplete cell raises the dedicated `IncompleteCellCaught` error; only
that error is caught and converted to the configured `incompleteValue`
(`false` for `when`/`asSoonAs` via `wrapWhenCond`), while any other
exception propagates. -/
theorem c8_condition_protector (f : CondFun) (iv : JsValue) (n counter : Int)
    (cellName : String) (cs : CellState) :
    ((wrapConditionFunc f iv n).2 = (f (n + 1)).2 - 1) ∧
    (∀ v k, f (n + 1) = (Except.ok v, k) →
      wrapConditionFunc f iv n = (Except.ok (convFn iv v), k - 1)) ∧
    (∀ c k, f (n + 1) = (Except.error (JsError.incompleteCellCaught c), k) →
      wrapConditionFunc f iv n = (Except.ok iv, k - 1)) ∧
    (∀ msg k, f (n + 1) = (Except.error (JsError.other msg), k) →
      wrapConditionFunc f iv n = (Except.error (JsError.other msg), k - 1)) ∧
    (∀ c k, f (n + 1) = (Except.error (JsError.incompleteCellCaught c), k) →
      wrapWhenCond f n = (Except.ok (JsValue.bool false), k - 1)) ∧
    (0 < counter → cs.complete = false →
      devProxyGet counter cellName cs
        = Except.error (JsError.incompleteCellCaught cellName)) ∧
    (counter = 0 → devProxyGet counter cellName cs = Except.ok cs.value) ∧
    (cs.complete = true → devProxyGet counter cellName cs = Except.ok cs.value) := by
  refine ⟨?_, ?_, ?_, ?_, ?_, ?_, ?_, ?_⟩
  · rcases hf : f (n + 1) with ⟨r, k⟩
    cases r with
    | ok v => simp [wrapConditionFunc, hf]
    | error err => cases err <;> simp [wrapConditionFunc, hf]
  · intro v k hf
    simp [wrapConditionFunc, hf]
  · intro c k hf
    simp [wrapConditionFunc, hf]
  · intro msg k hf
    simp [wrapConditionFunc, hf]
  · intro c k hf
    simp [wrapWhenCond, wrapConditionFunc, hf, convFn]
  · intro hpos hinc
    have hne : counter ≠ 0 := by omega
    simp [devProxyGet, hne, hinc]
  · intro hzero
    simp [devProxyGet, hzero]
  · intro hcomp
    simp [devProxyGet, hcomp]

/-- Witness for C8: a `when`-style wrapped condition that reads an
incomplete cell (throwing `IncompleteCellCaught` with the counter at 1)
evaluates to `false` with the counter restored to 0, and the cell read
itself raises the dedicated error. -/
theorem c8_witness :
    wrapWhenCond c8IncompleteCond 0 = (Except.ok (JsValue.bool false), 0) ∧
    devProxyGet 1 "x" { value := JsValue.null, complete := false }
      = Except.error (JsError.incompleteCellCaught "x") :=
  ⟨(c8_condition_protector c8IncompleteCond JsValue.undef 0 1 "x"
      { value := JsValue.null, complete := false }).2.2.2.2.1 "x" 1 rfl,
   (c8_condition_protector c8IncompleteCond JsValue.undef 0 1 "x"
      { value := JsValue.null, complete := false }).2.2.2.2.2.1 (by decide) rfl⟩

/-- Claim C9 counterexample: destroying rule id 0 — which sits both in
`cellToRuleMap[exCell]` and in `rulesWithoutCells` — marks it destroyed
but removes it from neither index, so the claim that destruction removes
every entry referring to the rule is false. -/
theorem c9_counterexample :
    c9Engine.cellToRuleMap exCell = some [0] ∧
    c9Engine.rulesWithoutCells = [0] ∧
    ((destroyRule c9Engine 0).rules 0).map Rule.ruleType = some RuleType.noneT ∧
    (destroyRule c9Engine 0).cellToRuleMap exCell = some [0] ∧
    (destroyRule c9Engine 0).rulesWithoutCells = [0] := by
  refine ⟨rfl, rfl, ?_, ?_, ?_⟩ <;> rfl

/-- Claim C9 (amended): while a rule is alive its `cellToRules` entries
only grow — `storeRuleCell` appends the rule to the changed cell's list
and leaves every other cell's list untouched — but destroying a rule
removes nothing: `Destroy` releases the callback handles and marks the
rule destroyed while leaving `cellToRuleMap` and `rulesWithoutCells`
completely unchanged. -/
theorem c9_cell_index_lifecycle (e : Engine) (rid : Nat) (c x : Cell) :
    ((destroyRule e rid).cellToRuleMap = e.cellToRuleMap ∧
     (destroyRule e rid).rulesWithoutCells = e.rulesWithoutCells) ∧
    (storeRuleCell e rid c).cellToRuleMap x =
      (if x = c then some (((e.cellToRuleMap c).getD []) ++ [rid])
       else e.cellToRuleMap x) := by
  refine ⟨⟨destroyRule_cellToRuleMap e rid, destroyRule_rulesWithoutCells e rid⟩, ?_⟩
  by_cases hx : x = c
  · rw [if_pos hx]
    show (if x = c then some (((e.cellToRuleMap c).getD []) ++ [rid])
          else e.cellToRuleMap x) = _
    rw [if_pos hx]
  · rw [if_neg hx]
    show (if x = c then some (((e.cellToRuleMap c).getD []) ++ [rid])
          else e.cellToRuleMap x) = _
    rw [if_neg hx]

end WbRules
